import Mathlib

/-!
Verification of the FastGPT chat-completion client (error classification,
retry/backoff execution, SSE stream decoding, URL building, configuration
validation, and the event-emitting streaming wrappers) against its
natural-language specification.

The client is a TypeScript class; this file is a shallow embedding of its
relevant methods.  JavaScript strings are modelled as Lean String (or
List Char in the byte-oriented stream-decoding sections), JavaScript
Error objects as a structure carrying the name and message properties,
fallible computations as Except, and the nondeterministic Math.random
draws as explicit rational-number parameters in the interval [0, 1).
-/

/-- Substring test on character lists: JavaScript String.prototype.includes. -/
def containsSub (pat : List Char) : List Char → Bool
  | [] => List.isPrefixOf pat []
  | c :: t => List.isPrefixOf pat (c :: t) || containsSub pat t

/-- JavaScript s.includes(pat) for Lean strings. -/
def containsStr (s pat : String) : Bool := containsSub pat.data s.data

/-- The whitespace characters stripped by JavaScript trim / parseInt
(restricted to the ASCII range; the client never feeds non-ASCII
whitespace to these operations). -/
def isJsWhitespace (c : Char) : Bool :=
  c = ' ' || c = '\t' || c = '\n' || c = '\x0d' || c = '\x0b' || c = '\x0c'

/-- Numeric value of a list of decimal digit characters. -/
def digitsVal (ds : List Char) : Nat :=
  ds.foldl (fun a c => a * 10 + (c.toNat - 48)) 0

/-- JavaScript parseInt(s, 10): skip leading whitespace, optional sign,
then a maximal run of decimal digits; none models NaN (no digits). -/
def parseIntJS (s : String) : Option Int :=
  let l := s.data.dropWhile isJsWhitespace
  let signAndRest : Int × List Char :=
    match l with
    | '-' :: t => (-1, t)
    | '+' :: t => (1, t)
    | _ => (1, l)
  let ds := signAndRest.2.takeWhile Char.isDigit
  if ds = [] then none
  else some (signAndRest.1 * (digitsVal ds : Int))

/-- The closed error taxonomy of FastGPTApiError.type. -/
inductive ErrType where
  | network
  | authentication
  | validation
  | server
  | unknown
deriving DecidableEq, Repr

/-- FastGPTApiError: code?, message, type, retryable?, retryAfter?.
The optional TypeScript fields are Options; parseErrorResponse always
fills retryable, validateConfig leaves it undefined. -/
structure FastGPTApiError where
  code : Option Nat
  message : String
  type : ErrType
  retryable : Option Bool
  retryAfter : Option Int
deriving DecidableEq, Repr

/-- A JavaScript Error value as observed by the client: its name property
("Error" for plain new Error(...), "TypeError" for fetch-level failures,
"AbortError" for DOMException aborts) and its message. -/
structure JsError where
  name : String
  message : String
deriving DecidableEq, Repr

/-- new Error(msg). -/
def mkError (msg : String) : JsError := ⟨"Error", msg⟩

/-- The observable parts of an HTTP error Response consumed by
parseErrorResponse: numeric status, statusText, the body (none when
response.json() rejects, some m when it parses with m the message field
if that field is present and truthy), and the raw Retry-After header. -/
structure ErrResponse where
  status : Nat
  statusText : String
  bodyMessage : Option (Option String)
  retryAfterHeader : Option String
deriving DecidableEq, Repr

/-- The template string HTTP plus status and statusText used for generic
error messages. -/
def httpStatusMessage (r : ErrResponse) : String :=
  "HTTP " ++ toString r.status ++ ": " ++ r.statusText

/-- retryAfter ? parseInt(retryAfter, 10) : undefined, where retryAfter is
the Retry-After header string (null and the empty string are falsy). -/
def retryAfterValue (r : ErrResponse) : Option Int :=
  match r.retryAfterHeader with
  | some h => if h = "" then none else parseIntJS h
  | none => none

/-- FastGPTClient.parseErrorResponse.  The source first awaits
response.json(); when that rejects the catch block returns the generic
unknown-type error, otherwise the switch on response.status applies. -/
def parseErrorResponse (r : ErrResponse) : FastGPTApiError :=
  match r.bodyMessage with
  | none =>
    { code := some r.status, message := httpStatusMessage r,
      type := ErrType.unknown, retryable := some (decide (500 ≤ r.status)),
      retryAfter := none }
  | some bmsg =>
    if r.status = 401 then
      ⟨some 401, "Authentication failed: Invalid API key",
        ErrType.authentication, some false, none⟩
    else if r.status = 403 then
      ⟨some 403, "Access forbidden: Check your API key permissions",
        ErrType.authentication, some false, none⟩
    else if r.status = 404 then
      ⟨some 404, "API endpoint not found: Check your Base URL",
        ErrType.validation, some false, none⟩
    else if r.status = 400 then
      ⟨some 400, bmsg.getD "Bad request: Invalid configuration",
        ErrType.validation, some false, none⟩
    else if r.status = 429 then
      ⟨some 429, "Rate limit exceeded: Too many requests",
        ErrType.server, some true, retryAfterValue r⟩
    else if r.status = 500 ∨ r.status = 502 ∨ r.status = 503 ∨ r.status = 504 then
      ⟨some r.status, "Server error: FastGPT service is temporarily unavailable",
        ErrType.server, some true, retryAfterValue r⟩
    else if r.status = 408 then
      ⟨some 408, "Request timeout: The server took too long to respond",
        ErrType.server, some true, none⟩
    else
      ⟨some r.status, bmsg.getD (httpStatusMessage r),
        ErrType.unknown, some (decide (500 ≤ r.status)), none⟩

/-- FastGPTClient.isRetryableError.  The instanceof TypeError guard is
modelled by the name property; the remaining branches test substrings of
the message of an Error instance. -/
def isRetryableError (e : JsError) : Bool :=
  (e.name == "TypeError" && containsStr e.message "fetch")
  || containsStr e.message "Rate limit exceeded"
  || containsStr e.message "Server error"
  || containsStr e.message "Request timeout"
  || containsStr e.message "Network error"

/-- RetryOptions: maxRetries, baseDelay, maxDelay, backoffMultiplier.
Millisecond delays are modelled as rationals. -/
structure RetryOptions where
  maxRetries : Nat
  baseDelay : ℚ
  maxDelay : ℚ
  backoffMultiplier : ℚ
deriving DecidableEq, Repr

/-- FastGPTClient.defaultRetryOptions. -/
def defaultRetryOptions : RetryOptions := ⟨3, 1000, 10000, 2⟩

/-- FastGPTClient.calculateRetryDelay.  rand is the Math.random() draw in
[0, 1); JavaScript 0.1 is modelled by the rational 1/10.  The rate-limit
branch is selected by a message substring test and ignores both the rand
draw and the retryAfter field of the classified error. -/
def calculateRetryDelay (attempt : Nat) (opts : RetryOptions) (e : JsError)
    (rand : ℚ) : ℚ :=
  if containsStr e.message "Rate limit exceeded" then
    min (opts.baseDelay * opts.backoffMultiplier ^ (attempt + 1)) opts.maxDelay
  else
    let delay := min (opts.baseDelay * opts.backoffMultiplier ^ attempt) opts.maxDelay
    delay + rand * (1 / 10) * delay

/-- Result of one executeWithRetry run: the surfaced outcome, the number
of times the wrapped operation was invoked, and the list of backoff
delays slept through (in order). -/
structure RetryResult (α : Type) where
  result : Except JsError α
  attempts : Nat
  delays : List ℚ
deriving Repr

/-- The loop body of FastGPTClient.executeWithRetry, from a given attempt
index.  fuel is maxRetries - attempt, so the fuel-exhausted branch is
unreachable from executeWithRetry; on the last attempt the loop breaks
and rethrows, otherwise a non-retryable error is rethrown immediately and
a retryable one sleeps calculateRetryDelay and retries. -/
def goRetry {α : Type} (op : Nat → Except JsError α) (opts : RetryOptions)
    (rands : Nat → ℚ) : Nat → Nat → List ℚ → RetryResult α
  | attempt, fuel, acc =>
    match op attempt with
    | .ok v => ⟨.ok v, attempt + 1, acc⟩
    | .error e =>
      if attempt = opts.maxRetries then ⟨.error e, attempt + 1, acc⟩
      else if !(isRetryableError e) then ⟨.error e, attempt + 1, acc⟩
      else
        match fuel with
        | 0 => ⟨.error e, attempt + 1, acc⟩
        | f + 1 =>
          goRetry op opts rands (attempt + 1) f
            (acc ++ [calculateRetryDelay attempt opts e (rands attempt)])

/-- FastGPTClient.executeWithRetry with an explicit operation outcome per
attempt index and explicit Math.random() draws. -/
def executeWithRetry {α : Type} (op : Nat → Except JsError α)
    (opts : RetryOptions) (rands : Nat → ℚ) : RetryResult α :=
  goRetry op opts rands 0 opts.maxRetries []

/-- Whether a string ends with a slash. -/
def endsWithSlash (s : String) : Bool :=
  match s.data.getLast? with
  | some c => c = '/'
  | none => false

/-- One-trailing-slash strip: baseUrl.replace(/\/$/, "") removes a single
slash at the end of the string if present. -/
def stripTrailingSlash (s : String) : String :=
  if endsWithSlash s then String.mk s.data.dropLast else s

/-- FastGPTClient.buildApiUrl: strip the trailing slash from the
configured base URL, then append "/api" unless the stripped base URL
already contains the substring "/api", then append the endpoint path. -/
def buildApiUrl (baseUrl endpoint : String) : String :=
  let b := stripTrailingSlash baseUrl
  let apiPath := if containsStr b "/api" then "" else "/api"
  b ++ apiPath ++ endpoint

/-- FastGPTConfig from types/storage: baseUrl, appId, apiKey. -/
structure FastGPTConfig where
  baseUrl : String
  appId : String
  apiKey : String
deriving DecidableEq, Repr

/-- FastGPTClient.validateConfig.  The browser URL constructor is a host
primitive, passed in as urlProtocol: it returns the protocol (scheme plus
a colon, as in the url.protocol property) when new URL(s) succeeds and
none when it throws.  A JavaScript string is falsy exactly when empty. -/
def validateConfig (urlProtocol : String → Option String)
    (cfg : FastGPTConfig) : Option FastGPTApiError :=
  if cfg.baseUrl = "" then
    some ⟨none, "Base URL is required", ErrType.validation, none, none⟩
  else if cfg.appId = "" then
    some ⟨none, "App ID is required", ErrType.validation, none, none⟩
  else if cfg.apiKey = "" then
    some ⟨none, "API Key is required", ErrType.validation, none, none⟩
  else
    match urlProtocol cfg.baseUrl with
    | some p =>
      if !(p = "http:" || p = "https:") then
        some ⟨none, "Base URL must use HTTP or HTTPS protocol",
          ErrType.validation, none, none⟩
      else none
    | none =>
      some ⟨none, "Invalid Base URL format", ErrType.validation, none, none⟩

/-- State of the WHATWG incremental UTF-8 decoder backing TextDecoder:
the partial code point, how many continuation bytes were consumed, how
many are needed, and the admissible range for the next byte.  With
stream: true this state persists across decode calls, which is how
multi-byte characters split across chunk boundaries are reassembled. -/
structure DecoderState where
  codepoint : Nat
  bytesSeen : Nat
  bytesNeeded : Nat
  lowerBoundary : Nat
  upperBoundary : Nat
deriving DecidableEq, Repr

/-- The fresh decoder state. -/
def DecoderState.init : DecoderState := ⟨0, 0, 0, 0x80, 0xBF⟩

/-- U+FFFD, emitted by TextDecoder for invalid input. -/
def replacementChar : Char := '�'

/-- Decoding a byte with no multi-byte sequence in progress. -/
def startByte (b : Nat) : List Char × DecoderState :=
  if b ≤ 0x7F then ([Char.ofNat b], DecoderState.init)
  else if 0xC2 ≤ b ∧ b ≤ 0xDF then ([], ⟨b % 32, 0, 1, 0x80, 0xBF⟩)
  else if b = 0xE0 then ([], ⟨b % 16, 0, 2, 0xA0, 0xBF⟩)
  else if b = 0xED then ([], ⟨b % 16, 0, 2, 0x80, 0x9F⟩)
  else if 0xE1 ≤ b ∧ b ≤ 0xEF then ([], ⟨b % 16, 0, 2, 0x80, 0xBF⟩)
  else if b = 0xF0 then ([], ⟨b % 8, 0, 3, 0x90, 0xBF⟩)
  else if b = 0xF4 then ([], ⟨b % 8, 0, 3, 0x80, 0x8F⟩)
  else if 0xF1 ≤ b ∧ b ≤ 0xF3 then ([], ⟨b % 8, 0, 3, 0x80, 0xBF⟩)
  else ([replacementChar], DecoderState.init)

/-- One step of the WHATWG UTF-8 decoder: either start a sequence, extend
the pending one, or (on an out-of-range continuation byte) emit U+FFFD
and reprocess the byte from the fresh state. -/
def decodeByte (st : DecoderState) (b : Nat) : List Char × DecoderState :=
  if st.bytesNeeded = 0 then startByte b
  else if st.lowerBoundary ≤ b ∧ b ≤ st.upperBoundary then
    let cp := st.codepoint * 64 + (b % 64)
    if st.bytesSeen + 1 = st.bytesNeeded then ([Char.ofNat cp], DecoderState.init)
    else ([], ⟨cp, st.bytesSeen + 1, st.bytesNeeded, 0x80, 0xBF⟩)
  else
    let r := startByte b
    (replacementChar :: r.1, r.2)

/-- decoder.decode(value, stream: true): fold decodeByte over the
chunk, returning the decoded text and the carried state. -/
def decodeChunk : DecoderState → List Nat → List Char × DecoderState
  | st, [] => ([], st)
  | st, b :: bs =>
    let r := decodeByte st b
    let r2 := decodeChunk r.2 bs
    (r.1 ++ r2.1, r2.2)

/-- Prepend a character to the first piece of a split (helper for
splitNl). -/
def consHead (c : Char) : List (List Char) → List (List Char)
  | [] => [[c]]
  | h :: t => (c :: h) :: t

/-- JavaScript s.split("\n") on character lists: the list of newline-free
pieces, always nonempty, with empty pieces kept. -/
def splitNl : List Char → List (List Char)
  | [] => [[]]
  | c :: rest => if c = '\n' then [] :: splitNl rest else consHead c (splitNl rest)

/-- JavaScript String.prototype.trim (over the client's ASCII whitespace
set). -/
def trimChars (l : List Char) : List Char :=
  ((l.dropWhile isJsWhitespace).reverse.dropWhile isJsWhitespace).reverse

/-- Outcome of JSON.parse on one SSE payload string, as observed through
the processors' property guards.  fail models JSON.parse (or the
subsequent property access) throwing.  val errorInfo content models a
parsed object: errorInfo is the message field when code, statusText and
message are all truthy (the FastGPT error-frame shape tested by
processStreamResponse), content is choices[0].delta.content when that
guard chain passes with a truthy content.  JSON.parse is a host
primitive, so the processors are parameterised by it. -/
inductive JsonResult where
  | fail
  | val (errorInfo : Option (List Char)) (content : Option (List Char))
deriving DecidableEq, Repr

/-- The SSE data-frame marker. -/
def dataPrefix : List Char := "data: ".data

/-- The stream-end sentinel line. -/
def doneLine : List Char := "data: [DONE]".data

/-- Per-line handling of processEnhancedStreamResponse: trim, skip empty
lines and the sentinel, strip the data marker, JSON-decode, and emit the
content delta when present; decode failures are logged and skipped. -/
def handleLineE (parse : List Char → JsonResult) (line : List Char) :
    Option (List Char) :=
  let t := trimChars line
  if t = [] ∨ t = doneLine then none
  else if List.isPrefixOf dataPrefix t then
    match parse (t.drop 6) with
    | JsonResult.fail => none
    | JsonResult.val _ content => content
  else none

/-- The after-end-of-stream handling of the remaining buffer in
processEnhancedStreamResponse. -/
def finalFlushE (parse : List Char → JsonResult) (buf : List Char) :
    List (List Char) :=
  if trimChars buf ≠ [] then
    let t := trimChars buf
    if List.isPrefixOf dataPrefix t ∧ t ≠ doneLine then
      match parse (t.drop 6) with
      | JsonResult.fail => []
      | JsonResult.val _ content =>
        match content with
        | some c => [c]
        | none => []
    else []
  else []

/-- One read-loop iteration of processEnhancedStreamResponse at the text
level: append the decoded text to the carried buffer, split on newlines,
keep the last (possibly incomplete) piece as the new buffer, and handle
every complete line in order. -/
def enhStepText (parse : List Char → JsonResult)
    (st : List Char × List (List Char)) (text : List Char) :
    List Char × List (List Char) :=
  let parts := splitNl (st.1 ++ text)
  (parts.getLastD [], st.2 ++ parts.dropLast.filterMap (handleLineE parse))

/-- Full state of processEnhancedStreamResponse: decoder state, line
buffer, and the deltas emitted so far. -/
structure EnhState where
  dec : DecoderState
  buf : List Char
  out : List (List Char)
deriving DecidableEq, Repr

/-- One read-loop iteration of processEnhancedStreamResponse on a byte
chunk. -/
def enhStep (parse : List Char → JsonResult) (st : EnhState)
    (chunk : List Nat) : EnhState :=
  let d := decodeChunk st.dec chunk
  let s := enhStepText parse (st.buf, st.out) d.1
  ⟨d.2, s.1, s.2⟩

/-- FastGPTClient.processEnhancedStreamResponse on a completed source
(run without cancellation): the ordered content deltas emitted for the
given sequence of byte chunks.  The trailing incomplete buffer is
line-processed once more after end of data; bytes of an incomplete final
code point are discarded (the source never calls the flushing decode). -/
def processEnhancedStreamResponse (parse : List Char → JsonResult)
    (chunks : List (List Nat)) : List (List Char) :=
  let st := chunks.foldl (enhStep parse) ⟨DecoderState.init, [], []⟩
  st.out ++ finalFlushE parse st.buf

/-- Text-level entry point of the enhanced processor (the byte level is
this applied after incremental decoding). -/
def processEnhancedText (parse : List Char → JsonResult)
    (texts : List (List Char)) : List (List Char) :=
  let st := texts.foldl (enhStepText parse) ([], [])
  st.2 ++ finalFlushE parse st.1

/-- Per-line outcome in processStreamResponse: skip, emit a delta, or
throw (the formatted FastGPT error-frame message, which the catch block
rethrows because it starts with the error marker, killing the stream). -/
inductive PlainAct where
  | skip
  | emit (c : List Char)
  | throwE (msg : List Char)
deriving DecidableEq, Repr

/-- Per-line handling of processStreamResponse: trim, skip empty lines
and the sentinel, strip the data marker, parse; an error-shaped frame
throws, a content delta is emitted, anything else (including malformed
JSON) is skipped.  The thrown value is identified by the message field of
the error frame. -/
def handleLinePlain (parse : List Char → JsonResult) (line : List Char) :
    PlainAct :=
  let t := trimChars line
  if t = [] ∨ t = doneLine then PlainAct.skip
  else if List.isPrefixOf dataPrefix t then
    match parse (t.drop 6) with
    | JsonResult.fail => PlainAct.skip
    | JsonResult.val (some m) _ => PlainAct.throwE m
    | JsonResult.val none content =>
      match content with
      | some c => PlainAct.emit c
      | none => PlainAct.skip
  else PlainAct.skip

/-- Process a list of complete lines in order for processStreamResponse,
short-circuiting when a line throws. -/
def runPlainLines (parse : List Char → JsonResult) :
    List (List Char) → List (List Char) →
    Except (List Char) (List (List Char))
  | acc, [] => Except.ok acc
  | acc, line :: rest =>
    match handleLinePlain parse line with
    | PlainAct.skip => runPlainLines parse acc rest
    | PlainAct.emit c => runPlainLines parse (acc ++ [c]) rest
    | PlainAct.throwE m => Except.error m

/-- The chunk loop of processStreamResponse: note that each decoded chunk
is split on newlines and every piece — including the trailing,
possibly incomplete one — is handled immediately; no line buffer is
carried to the next read. -/
def processPlainGo (parse : List Char → JsonResult) :
    DecoderState × List (List Char) → List (List Nat) →
    Except (List Char) (List (List Char))
  | st, [] => Except.ok st.2
  | st, c :: cs =>
    let d := decodeChunk st.1 c
    match runPlainLines parse st.2 (splitNl d.1) with
    | Except.ok out => processPlainGo parse (d.2, out) cs
    | Except.error m => Except.error m

/-- FastGPTClient.processStreamResponse on a completed source: the
ordered content deltas (or the thrown error-frame message) for the given
sequence of byte chunks. -/
def processStreamResponse (parse : List Char → JsonResult)
    (chunks : List (List Nat)) : Except (List Char) (List (List Char)) :=
  processPlainGo parse (DecoderState.init, []) chunks

/-- Text-level chunk loop of processStreamResponse. -/
def processPlainTextGo (parse : List Char → JsonResult) :
    List (List Char) → List (List Char) →
    Except (List Char) (List (List Char))
  | out, [] => Except.ok out
  | out, text :: rest =>
    match runPlainLines parse out (splitNl text) with
    | Except.ok out2 => processPlainTextGo parse out2 rest
    | Except.error m => Except.error m

/-- Text-level entry point of processStreamResponse. -/
def processPlainText (parse : List Char → JsonResult)
    (texts : List (List Char)) : Except (List Char) (List (List Char)) :=
  processPlainTextGo parse [] texts

/-- The streaming error taxonomy of StreamingError.type. -/
inductive StreamingErrorType where
  | connection
  | parsing
  | timeout
  | abort
deriving DecidableEq, Repr

/-- StreamingError: type, message, recoverable. -/
structure StreamingError where
  type : StreamingErrorType
  message : String
  recoverable : Bool
deriving DecidableEq, Repr

/-- FastGPTClient.classifyStreamingError.  Every error propagated inside
this client is an Error instance (raw AbortErrors are rewrapped by the
generators before they reach this point), so the instanceof Error branch
always applies; the name property models the AbortError test. -/
def classifyStreamingError (e : JsError) : StreamingError :=
  if e.name == "AbortError" || containsStr e.message "aborted" then
    ⟨StreamingErrorType.abort, "Request was cancelled or timed out", true⟩
  else if containsStr e.message "timeout" then
    ⟨StreamingErrorType.timeout, "Request timed out while streaming", true⟩
  else if containsStr e.message "network" || containsStr e.message "fetch"
      || containsStr e.message "connection lost" then
    ⟨StreamingErrorType.connection, "Network connection lost during streaming", true⟩
  else if containsStr e.message "parse" || containsStr e.message "JSON" then
    ⟨StreamingErrorType.parsing, "Failed to parse streaming response", false⟩
  else if containsStr e.message "Authentication failed"
      || containsStr e.message "Invalid API key"
      || containsStr e.message "Access forbidden" then
    ⟨StreamingErrorType.connection, e.message, false⟩
  else if containsStr e.message "Server error"
      || containsStr e.message "service unavailable" then
    ⟨StreamingErrorType.connection, e.message, true⟩
  else
    ⟨StreamingErrorType.connection, e.message, true⟩

/-- StreamingEvent, the tagged union yielded by the event-emitting
generators.  The error constructor records whether the metadata object
was attached (the validation-failure event carries none). -/
inductive StreamingEvent where
  | start (messageId : String)
  | chunk (data : String) (messageId : String) (currentChunk : Nat)
  | complete (messageId : String) (totalChunks currentChunk : Nat)
  | error (e : StreamingError) (meta : Option (String × Nat))
  | abort
deriving DecidableEq, Repr

/-- How one exchange's underlying stream run ends once the retry-wrapped
setup has produced a generator: either the source ends naturally after
yielding the listed deltas, or the generator throws after yielding
them. -/
inductive StreamOutcome where
  | success (deltas : List String)
  | failsAfter (deltas : List String) (e : JsError)
deriving Repr

/-- Chunk events with the running 1-based currentChunk counter. -/
def chunkEventsFrom (msgId : String) : Nat → List String → List StreamingEvent
  | _, [] => []
  | n, d :: ds => StreamingEvent.chunk d msgId (n + 1) :: chunkEventsFrom msgId (n + 1) ds

/-- The event sequence produced by one complete run of
FastGPTClient.sendMessageStreamWithEvents: validation failure yields a
single connection error event and returns before start; otherwise start
is emitted, then either the retry-wrapped setup throws (error event), or
each delta is forwarded as a chunk event and the run ends with complete
or — when the stream throws mid-way — with a classified error event. -/
def sendMessageStreamWithEventsModel (validation : Option FastGPTApiError)
    (msgId : String) (setup : Except JsError StreamOutcome) :
    List StreamingEvent :=
  match validation with
  | some ve =>
    [StreamingEvent.error ⟨StreamingErrorType.connection, ve.message, false⟩ none]
  | none =>
    match setup with
    | Except.error e =>
      [StreamingEvent.start msgId,
        StreamingEvent.error (classifyStreamingError e) (some (msgId, 0))]
    | Except.ok (StreamOutcome.success ds) =>
      StreamingEvent.start msgId ::
        (chunkEventsFrom msgId 0 ds ++
          [StreamingEvent.complete msgId ds.length ds.length])
    | Except.ok (StreamOutcome.failsAfter ds e) =>
      StreamingEvent.start msgId ::
        (chunkEventsFrom msgId 0 ds ++
          [StreamingEvent.error (classifyStreamingError e) (some (msgId, ds.length))])

/-- The event sequence of sendMessageWithHistoryStreamWithEvents; its
generator body is line-for-line identical to sendMessageStreamWithEvents
(only the request payload differs, which does not appear in events). -/
def sendMessageWithHistoryStreamWithEventsModel
    (validation : Option FastGPTApiError) (msgId : String)
    (setup : Except JsError StreamOutcome) : List StreamingEvent :=
  match validation with
  | some ve =>
    [StreamingEvent.error ⟨StreamingErrorType.connection, ve.message, false⟩ none]
  | none =>
    match setup with
    | Except.error e =>
      [StreamingEvent.start msgId,
        StreamingEvent.error (classifyStreamingError e) (some (msgId, 0))]
    | Except.ok (StreamOutcome.success ds) =>
      StreamingEvent.start msgId ::
        (chunkEventsFrom msgId 0 ds ++
          [StreamingEvent.complete msgId ds.length ds.length])
    | Except.ok (StreamOutcome.failsAfter ds e) =>
      StreamingEvent.start msgId ::
        (chunkEventsFrom msgId 0 ds ++
          [StreamingEvent.error (classifyStreamingError e) (some (msgId, ds.length))])

/-- sendMessageStreamWithEvents including its opening validateConfig
call. -/
def sendMessageStreamWithEventsRun (urlProtocol : String → Option String)
    (cfg : FastGPTConfig) (msgId : String)
    (setup : Except JsError StreamOutcome) : List StreamingEvent :=
  sendMessageStreamWithEventsModel (validateConfig urlProtocol cfg) msgId setup

/-- sendMessageWithHistoryStreamWithEvents including its opening
validateConfig call. -/
def sendMessageWithHistoryStreamWithEventsRun
    (urlProtocol : String → Option String) (cfg : FastGPTConfig)
    (msgId : String) (setup : Except JsError StreamOutcome) :
    List StreamingEvent :=
  sendMessageWithHistoryStreamWithEventsModel (validateConfig urlProtocol cfg)
    msgId setup

/-- Terminal events: complete, error, abort. -/
def isTerminal : StreamingEvent → Bool
  | StreamingEvent.complete _ _ _ => true
  | StreamingEvent.error _ _ => true
  | StreamingEvent.abort => true
  | _ => false

/-- The terminal-event invariant of an event sequence: it is nonempty,
its last event is terminal, and no other event is terminal — hence
exactly one terminal event, every chunk event precedes it, and nothing
follows it. -/
def terminalInvariant (evs : List StreamingEvent) : Bool :=
  evs.dropLast.all (fun e => !(isTerminal e)) &&
  (match evs.getLast? with
   | some t => isTerminal t
   | none => false)


deriving instance DecidableEq for Except

/-- One character of the enhanced processor's line discipline: a newline
flushes the buffered line through the handler, any other character is
appended to the buffer (used to relate enhStepText to a character fold
when proving chunk-boundary invariance). -/
def lineFold (handle : List Char → Option (List Char))
    (st : List Char × List (List Char)) (c : Char) :
    List Char × List (List Char) :=
  if c = '\n' then ([], st.2 ++ (handle st.1).toList) else (st.1 ++ [c], st.2)

/-- A concrete SSE payload: a one-delta frame whose content is Hi. -/
def jsonHi : List Char :=
  ("\x7b\"choices\":[\x7b\"delta\":\x7b\"content\":\"Hi\"\x7d\x7d]\x7d").data

/-- JSON.parse restricted to the strings the C3 counterexample feeds it:
jsonHi parses to a frame with delta content Hi; every other input — in
particular the truncated fragment "\x7b\"cho" that the mid-line split
produces, which real JSON.parse rejects — fails to parse. -/
def parseEx (s : List Char) : JsonResult :=
  if s = jsonHi then JsonResult.val none (some "Hi".data) else JsonResult.fail

/-- The UTF-8 bytes of the frame line data: jsonHi followed by a newline
(pure ASCII, so each byte is the code point). -/
def fullFrame : List Nat := ("data: ".data ++ jsonHi ++ ['\n']).map Char.toNat

/-- A second concrete SSE payload with delta content B!. -/
def jsonB : List Char :=
  ("\x7b\"choices\":[\x7b\"delta\":\x7b\"content\":\"B!\"\x7d\x7d]\x7d").data

/-- A malformed payload: an unterminated JSON object, rejected by
JSON.parse. -/
def badFrag : List Char := "\x7bbad".data

/-- JSON.parse restricted to the strings the C7 witness feeds it. -/
def parseC7 (s : List Char) : JsonResult :=
  if s = jsonHi then JsonResult.val none (some "Hi".data)
  else if s = jsonB then JsonResult.val none (some "B!".data)
  else JsonResult.fail

/-! ## Helper lemmas about the retry executor -/

theorem goRetry_const_retryable {α : Type} (e : JsError) (opts : RetryOptions)
    (rands : Nat → ℚ) (h : isRetryableError e = true) :
    ∀ (fuel attempt : Nat) (acc : List ℚ), attempt + fuel = opts.maxRetries →
      goRetry (fun _ => (Except.error e : Except JsError α)) opts rands attempt fuel acc =
        ⟨Except.error e, opts.maxRetries + 1,
          acc ++ (List.range' attempt fuel).map
            (fun k => calculateRetryDelay k opts e (rands k))⟩ := by
  intro fuel
  induction fuel with
  | zero =>
    intro attempt acc hsum
    simp only [Nat.add_zero] at hsum
    subst hsum
    rw [goRetry]
    simp
  | succ f ih =>
    intro attempt acc hsum
    have hne : attempt ≠ opts.maxRetries := by omega
    rw [goRetry]
    simp only [hne, if_false, h, Bool.not_true, Bool.false_eq_true, ite_false]
    rw [ih (attempt + 1) (acc ++ [calculateRetryDelay attempt opts e (rands attempt)]) (by omega)]
    simp [List.range'_succ, List.append_assoc]

theorem executeWithRetry_const_retryable {α : Type} (e : JsError)
    (opts : RetryOptions) (rands : Nat → ℚ) (h : isRetryableError e = true) :
    executeWithRetry (fun _ => (Except.error e : Except JsError α)) opts rands =
      ⟨Except.error e, opts.maxRetries + 1,
        (List.range opts.maxRetries).map
          (fun k => calculateRetryDelay k opts e (rands k))⟩ := by
  unfold executeWithRetry
  rw [goRetry_const_retryable e opts rands h opts.maxRetries 0 [] (by omega)]
  simp [List.range_eq_range']

theorem executeWithRetry_const_nonretryable {α : Type} (e : JsError)
    (opts : RetryOptions) (rands : Nat → ℚ) (h : isRetryableError e = false) :
    executeWithRetry (fun _ => (Except.error e : Except JsError α)) opts rands =
      ⟨Except.error e, 1, []⟩ := by
  unfold executeWithRetry
  rw [goRetry]
  simp only [h, Bool.not_false, if_true]
  split <;> rfl

theorem attempts_eq_four_of_retryable_msg (m : String)
    (hm : isRetryableError (mkError m) = true) (rands : Nat → ℚ) :
    (executeWithRetry
      (fun _ => (Except.error (mkError m) : Except JsError Unit))
      defaultRetryOptions rands).attempts = 4 := by
  rw [executeWithRetry_const_retryable _ _ _ hm]
  rfl

/-- Claim C2 (amended): for each HTTP status in {429, 500, 502, 503, 504,
408} returned persistently with a JSON-parseable error body, a call under
the default retry policy (maxRetries = 3) makes exactly maxRetries + 1 =
4 attempts before surfacing the failure.  The body-parses qualification
is forced by C2_counterexample: with an unparseable body the generic
message defeats the message-substring retry check and only 1 attempt is
made. -/
theorem C2_four_attempts_on_retryable_status (stx : String)
    (bmsg : Option String) (hdr : Option String) (rands : Nat → ℚ) :
    ((executeWithRetry (fun _ => (Except.error (mkError
        (parseErrorResponse ⟨429, stx, some bmsg, hdr⟩).message) :
        Except JsError Unit)) defaultRetryOptions rands).attempts = 4
    ∧ (executeWithRetry (fun _ => (Except.error (mkError
        (parseErrorResponse ⟨500, stx, some bmsg, hdr⟩).message) :
        Except JsError Unit)) defaultRetryOptions rands).attempts = 4
    ∧ (executeWithRetry (fun _ => (Except.error (mkError
        (parseErrorResponse ⟨502, stx, some bmsg, hdr⟩).message) :
        Except JsError Unit)) defaultRetryOptions rands).attempts = 4
    ∧ (executeWithRetry (fun _ => (Except.error (mkError
        (parseErrorResponse ⟨503, stx, some bmsg, hdr⟩).message) :
        Except JsError Unit)) defaultRetryOptions rands).attempts = 4
    ∧ (executeWithRetry (fun _ => (Except.error (mkError
        (parseErrorResponse ⟨504, stx, some bmsg, hdr⟩).message) :
        Except JsError Unit)) defaultRetryOptions rands).attempts = 4
    ∧ (executeWithRetry (fun _ => (Except.error (mkError
        (parseErrorResponse ⟨408, stx, some bmsg, hdr⟩).message) :
        Except JsError Unit)) defaultRetryOptions rands).attempts = 4)
    ∧ defaultRetryOptions.maxRetries + 1 = 4 := by
  refine ⟨⟨?_, ?_, ?_, ?_, ?_, ?_⟩, rfl⟩
  · rw [show (parseErrorResponse ⟨429, stx, some bmsg, hdr⟩).message =
      "Rate limit exceeded: Too many requests" from by simp [parseErrorResponse]]
    exact attempts_eq_four_of_retryable_msg _ (by decide) rands
  · rw [show (parseErrorResponse ⟨500, stx, some bmsg, hdr⟩).message =
      "Server error: FastGPT service is temporarily unavailable" from by
        simp [parseErrorResponse]]
    exact attempts_eq_four_of_retryable_msg _ (by decide) rands
  · rw [show (parseErrorResponse ⟨502, stx, some bmsg, hdr⟩).message =
      "Server error: FastGPT service is temporarily unavailable" from by
        simp [parseErrorResponse]]
    exact attempts_eq_four_of_retryable_msg _ (by decide) rands
  · rw [show (parseErrorResponse ⟨503, stx, some bmsg, hdr⟩).message =
      "Server error: FastGPT service is temporarily unavailable" from by
        simp [parseErrorResponse]]
    exact attempts_eq_four_of_retryable_msg _ (by decide) rands
  · rw [show (parseErrorResponse ⟨504, stx, some bmsg, hdr⟩).message =
      "Server error: FastGPT service is temporarily unavailable" from by
        simp [parseErrorResponse]]
    exact attempts_eq_four_of_retryable_msg _ (by decide) rands
  · rw [show (parseErrorResponse ⟨408, stx, some bmsg, hdr⟩).message =
      "Request timeout: The server took too long to respond" from by
        simp [parseErrorResponse]]
    exact attempts_eq_four_of_retryable_msg _ (by decide) rands

/-- Counterexample to claim C2 as stated: a 500 status returned
persistently whose response body is not JSON (response.json() rejects)
is classified retryable by parseErrorResponse, yet the call surfaces
after exactly 1 fetch attempt, not maxRetries + 1 = 4, because the
generic message defeats the message-substring check in
isRetryableError. -/
theorem C2_counterexample :
    (parseErrorResponse ⟨500, "Internal Server Error", none, none⟩).retryable = some true
    ∧ (executeWithRetry (fun _ => (Except.error (mkError
        (parseErrorResponse ⟨500, "Internal Server Error", none, none⟩).message) :
        Except JsError Unit)) defaultRetryOptions (fun _ => 0)).attempts = 1
    ∧ (1 : Nat) ≠ 4 := by
  refine ⟨by decide, by decide, by decide⟩

/-- Counterexample to claim C4 as stated: status 505 falls into the
default case of parseErrorResponse with kind unknown and retryable =
true, but when every attempt fails with it the executor makes exactly 1
attempt and sleeps no delay — the error is rethrown immediately even
though attempts remain (maxRetries = 3), because executeWithRetry
re-derives retryability from message substrings and the generic
HTTP 505 message matches none of them. -/
theorem C4_counterexample :
    (parseErrorResponse ⟨505, "HTTP Version Not Supported", some none, none⟩).retryable = some true
    ∧ (executeWithRetry (fun _ => (Except.error (mkError
        (parseErrorResponse ⟨505, "HTTP Version Not Supported", some none, none⟩).message) :
        Except JsError Unit)) defaultRetryOptions (fun _ => 0)).attempts = 1
    ∧ (executeWithRetry (fun _ => (Except.error (mkError
        (parseErrorResponse ⟨505, "HTTP Version Not Supported", some none, none⟩).message) :
        Except JsError Unit)) defaultRetryOptions (fun _ => 0)).delays = []
    ∧ defaultRetryOptions.maxRetries = 3 := by
  refine ⟨by decide, by decide, by decide, by decide⟩

/-- Claim C4 (amended): retryability inside the Retry Executor is decided
by isRetryableError (message substring matching), not by the
classifier's retryable flag.  For every error it marks retryable, a
persistently failing operation is attempted maxRetries + 1 times with a
calculateRetryDelay sleep before each retry; every error it does not
mark retryable is rethrown immediately after 1 attempt with no sleep.
Classifier-retryable default-case statuses such as 505 fall in the
second group (C4_counterexample). -/
theorem C4_retryable_retried_nonretryable_rethrown (e : JsError)
    (opts : RetryOptions) (rands : Nat → ℚ) :
    (isRetryableError e = true →
      (executeWithRetry (fun _ => (Except.error e : Except JsError Unit))
          opts rands).attempts = opts.maxRetries + 1
      ∧ (executeWithRetry (fun _ => (Except.error e : Except JsError Unit))
          opts rands).delays
        = (List.range opts.maxRetries).map
            (fun k => calculateRetryDelay k opts e (rands k)))
    ∧ (isRetryableError e = false →
      executeWithRetry (fun _ => (Except.error e : Except JsError Unit))
          opts rands = ⟨Except.error e, 1, []⟩) := by
  constructor
  · intro h
    rw [executeWithRetry_const_retryable _ _ _ h]
    exact ⟨rfl, rfl⟩
  · intro h
    exact executeWithRetry_const_nonretryable _ _ _ h

theorem C4_retryable_retried_nonretryable_rethrown_witness :
    (isRetryableError (mkError "Network error: connection refused") = true
      ∧ (executeWithRetry (fun _ => (Except.error
          (mkError "Network error: connection refused") : Except JsError Unit))
          defaultRetryOptions (fun _ => 0)).attempts
        = defaultRetryOptions.maxRetries + 1)
    ∧ (isRetryableError (mkError "nope") = false
      ∧ executeWithRetry (fun _ => (Except.error (mkError "nope") :
          Except JsError Unit)) defaultRetryOptions (fun _ => 0)
        = ⟨Except.error (mkError "nope"), 1, []⟩) :=
  ⟨⟨by decide,
    ((C4_retryable_retried_nonretryable_rethrown
      (mkError "Network error: connection refused") defaultRetryOptions
      (fun _ => 0)).1 (by decide)).1⟩,
   ⟨by decide,
    (C4_retryable_retried_nonretryable_rethrown (mkError "nope")
      defaultRetryOptions (fun _ => 0)).2 (by decide)⟩⟩

/-- Counterexample to claim C5 as stated: with the default policy,
attempt index 4 and the jitter draw 1/2 (allowed, since Math.random is
in [0, 1)), the computed delay is 10500 ms, strictly above maxDelay =
10000 ms: the jitter is added after the cap. -/
theorem C5_counterexample :
    defaultRetryOptions.maxDelay <
      calculateRetryDelay 4 defaultRetryOptions
        (mkError "Network error: connection reset") (1 / 2)
    ∧ (0 : ℚ) ≤ 1 / 2 ∧ (1 / 2 : ℚ) < 1 := by
  refine ⟨?_, by norm_num, by norm_num⟩
  have hc : containsStr "Network error: connection reset" "Rate limit exceeded" = false := by
    decide
  simp only [calculateRetryDelay, mkError, hc, Bool.false_eq_true, if_false,
    defaultRetryOptions]
  norm_num [min_def]

/-- Claim C5 (amended): for every attempt index, every policy with
nonnegative baseDelay, maxDelay and backoffMultiplier, and every jitter
draw in [0, 1), the delay computed by calculateRetryDelay is bounded by
maxDelay plus 10 percent of maxDelay (the pre-jitter delay is capped at
maxDelay, and the jitter adds at most a tenth of it); on the rate-limit
branch, which draws no jitter, the delay never exceeds maxDelay.  The
unqualified bound maxDelay of the original claim fails
(C5_counterexample). -/
theorem C5_delay_bounds (k : Nat) (opts : RetryOptions) (e : JsError) (r : ℚ)
    (hb : 0 ≤ opts.baseDelay) (hm : 0 ≤ opts.maxDelay)
    (hmul : 0 ≤ opts.backoffMultiplier) (hr0 : 0 ≤ r) (hr1 : r < 1) :
    calculateRetryDelay k opts e r ≤ opts.maxDelay + (1 / 10) * opts.maxDelay
    ∧ (containsStr e.message "Rate limit exceeded" = true →
        calculateRetryDelay k opts e r ≤ opts.maxDelay)
    ∧ min (opts.baseDelay * opts.backoffMultiplier ^ k) opts.maxDelay ≤ opts.maxDelay := by
  cases hc : containsStr e.message "Rate limit exceeded" with
  | true =>
    simp only [calculateRetryDelay, hc, if_true]
    refine ⟨le_trans (min_le_right _ _) (by nlinarith), fun _ => min_le_right _ _,
      min_le_right _ _⟩
  | false =>
    simp only [calculateRetryDelay, hc, Bool.false_eq_true, if_false]
    have hD0 : 0 ≤ min (opts.baseDelay * opts.backoffMultiplier ^ k) opts.maxDelay :=
      le_min (mul_nonneg hb (pow_nonneg hmul k)) hm
    have hDm : min (opts.baseDelay * opts.backoffMultiplier ^ k) opts.maxDelay ≤ opts.maxDelay :=
      min_le_right _ _
    refine ⟨?_, fun hcontra => hcontra.elim, min_le_right _ _⟩
    nlinarith

theorem C5_delay_bounds_witness :
    ((0 : ℚ) ≤ defaultRetryOptions.baseDelay
      ∧ (0 : ℚ) ≤ defaultRetryOptions.maxDelay
      ∧ (0 : ℚ) ≤ defaultRetryOptions.backoffMultiplier
      ∧ (0 : ℚ) ≤ 1 / 2 ∧ (1 / 2 : ℚ) < 1)
    ∧ calculateRetryDelay 2 defaultRetryOptions (mkError "boom") (1 / 2)
        ≤ defaultRetryOptions.maxDelay + (1 / 10) * defaultRetryOptions.maxDelay :=
  ⟨⟨by norm_num [defaultRetryOptions], by norm_num [defaultRetryOptions],
    by norm_num [defaultRetryOptions], by norm_num, by norm_num⟩,
   (C5_delay_bounds 2 defaultRetryOptions (mkError "boom") (1 / 2)
      (by norm_num [defaultRetryOptions]) (by norm_num [defaultRetryOptions])
      (by norm_num [defaultRetryOptions]) (by norm_num) (by norm_num)).1⟩

/-- Claim C6 is right about the spec's intent but the code drops the
hint: parseErrorResponse does parse the Retry-After header of a 429 into
retryAfter (here 30 seconds), but the retry path throws new
Error(message), losing the field, and calculateRetryDelay (whose own
comment says it checks for a server-provided Retry-After value) never
reads it.  With Retry-After: 30 the sleeps are exactly the shifted
exponential backoff 2000, 4000, 8000 ms; 30 s (30000 ms) never overrides
any of them. -/
theorem C6_retryAfter_parsed_but_never_used :
    (parseErrorResponse ⟨429, "Too Many Requests", some none, some "30"⟩).retryAfter = some 30
    ∧ (executeWithRetry (fun _ => (Except.error (mkError
        (parseErrorResponse ⟨429, "Too Many Requests", some none, some "30"⟩).message) :
        Except JsError Unit)) defaultRetryOptions (fun _ => 0)).delays = [2000, 4000, 8000]
    ∧ ¬ ((30 : ℚ) * 1000 ∈ [(2000 : ℚ), 4000, 8000]) := by
  refine ⟨by decide, ?_, by norm_num⟩
  rw [show (parseErrorResponse ⟨429, "Too Many Requests", some none, some "30"⟩).message =
    "Rate limit exceeded: Too many requests" from by simp [parseErrorResponse]]
  rw [executeWithRetry_const_retryable _ _ _ (by decide)]
  have hc : containsStr "Rate limit exceeded: Too many requests" "Rate limit exceeded" = true := by
    decide
  show List.map (fun k => calculateRetryDelay k defaultRetryOptions
    (mkError "Rate limit exceeded: Too many requests") 0) (List.range 3) = [2000, 4000, 8000]
  simp only [List.range_succ, List.range_zero, List.map_append, List.map_cons, List.map_nil,
    List.nil_append, calculateRetryDelay, mkError, hc, if_true, defaultRetryOptions]
  norm_num [min_def]

/-- Counterexample to claim C8 as stated: a 401 response whose body does
not parse as JSON is classified with kind unknown, not authentication —
response.json() rejects before the status switch is reached. -/
theorem C8_counterexample :
    (parseErrorResponse ⟨401, "Unauthorized", none, none⟩).type ≠ ErrType.authentication := by
  decide

/-- Claim C8 (amended): a 401 or 403 response whose body parses as JSON
is classified with kind authentication and retryable = false; when the
body does not parse, the kind falls back to unknown while retryable is
still false (the status is below 500).  The original claim's kind
authentication for unparseable bodies fails (C8_counterexample). -/
theorem C8_auth_classification (stx : String) (bmsg : Option String)
    (hdr : Option String) :
    ((parseErrorResponse ⟨401, stx, some bmsg, hdr⟩).type = ErrType.authentication
      ∧ (parseErrorResponse ⟨401, stx, some bmsg, hdr⟩).retryable = some false)
    ∧ ((parseErrorResponse ⟨403, stx, some bmsg, hdr⟩).type = ErrType.authentication
      ∧ (parseErrorResponse ⟨403, stx, some bmsg, hdr⟩).retryable = some false)
    ∧ ((parseErrorResponse ⟨401, stx, none, hdr⟩).type = ErrType.unknown
      ∧ (parseErrorResponse ⟨401, stx, none, hdr⟩).retryable = some false)
    ∧ ((parseErrorResponse ⟨403, stx, none, hdr⟩).type = ErrType.unknown
      ∧ (parseErrorResponse ⟨403, stx, none, hdr⟩).retryable = some false) := by
  refine ⟨⟨?_, ?_⟩, ⟨?_, ?_⟩, ⟨?_, ?_⟩, ⟨?_, ?_⟩⟩ <;> simp [parseErrorResponse]

theorem strip_append_slash (b : String) : stripTrailingSlash (b ++ "/") = b := by
  unfold stripTrailingSlash endsWithSlash
  have hd : (b ++ "/").data = b.data ++ ['/'] := by
    simp [String.data_append]
  rw [hd]
  simp [List.getLast?_concat, List.dropLast_concat]

theorem strip_no_slash (b : String) (h : endsWithSlash b = false) :
    stripTrailingSlash b = b := by
  unfold stripTrailingSlash
  rw [h]
  simp

/-- Claim C9: buildApiUrl strips the trailing slash of the configured
base URL (appending one to a slash-free base URL changes nothing), and
appends the /api segment exactly when the stripped base URL does not
already contain the substring /api; in particular the base URL
https://fastgpt.io/ yields https://fastgpt.io/api/v1/chat/completions. -/
theorem C9_buildApiUrl_spec :
    (∀ b ep : String, endsWithSlash b = false →
        buildApiUrl (b ++ "/") ep = buildApiUrl b ep)
    ∧ (∀ b ep : String, containsStr (stripTrailingSlash b) "/api" = false →
        buildApiUrl b ep = stripTrailingSlash b ++ "/api" ++ ep)
    ∧ (∀ b ep : String, containsStr (stripTrailingSlash b) "/api" = true →
        buildApiUrl b ep = stripTrailingSlash b ++ ep)
    ∧ buildApiUrl "https://fastgpt.io/" "/v1/chat/completions"
        = "https://fastgpt.io/api/v1/chat/completions" := by
  refine ⟨?_, ?_, ?_, by decide⟩
  · intro b ep h
    unfold buildApiUrl
    rw [strip_append_slash, strip_no_slash b h]
  · intro b ep h
    simp only [buildApiUrl, h]
    simp
  · intro b ep h
    simp only [buildApiUrl, h]
    simp

theorem C9_buildApiUrl_spec_witness :
    (endsWithSlash "https://fastgpt.io" = false
      ∧ buildApiUrl ("https://fastgpt.io" ++ "/") "/v1/chat/completions"
          = buildApiUrl "https://fastgpt.io" "/v1/chat/completions")
    ∧ (containsStr (stripTrailingSlash "https://fastgpt.io") "/api" = false
      ∧ buildApiUrl "https://fastgpt.io" "/v1/chat/completions"
          = stripTrailingSlash "https://fastgpt.io" ++ "/api" ++ "/v1/chat/completions")
    ∧ (containsStr (stripTrailingSlash "https://host/api") "/api" = true
      ∧ buildApiUrl "https://host/api" "/v1/chat/completions"
          = stripTrailingSlash "https://host/api" ++ "/v1/chat/completions") :=
  ⟨⟨by decide, C9_buildApiUrl_spec.1 "https://fastgpt.io" "/v1/chat/completions" (by decide)⟩,
   ⟨by decide, C9_buildApiUrl_spec.2.1 "https://fastgpt.io" "/v1/chat/completions" (by decide)⟩,
   ⟨by decide, C9_buildApiUrl_spec.2.2.1 "https://host/api" "/v1/chat/completions" (by decide)⟩⟩

theorem chunkEventsFrom_nonterminal (msgId : String) :
    ∀ (ds : List String) (n : Nat),
      (chunkEventsFrom msgId n ds).all (fun e => !(isTerminal e)) = true := by
  intro ds
  induction ds with
  | nil => intro n; rfl
  | cons d ds ih =>
    intro n
    have hstep : chunkEventsFrom msgId n (d :: ds)
        = StreamingEvent.chunk d msgId (n + 1) :: chunkEventsFrom msgId (n + 1) ds := rfl
    rw [hstep, List.all_cons, ih (n + 1)]
    rfl

theorem terminalInvariant_concat (pre : List StreamingEvent) (t : StreamingEvent)
    (hpre : pre.all (fun e => !(isTerminal e)) = true) (ht : isTerminal t = true) :
    terminalInvariant (pre ++ [t]) = true := by
  simp [terminalInvariant, List.dropLast_concat, List.getLast?_concat, ht]
  intro x hx
  have := List.all_eq_true.mp hpre x hx
  simpa using this

theorem model_terminalInvariant (v : Option FastGPTApiError) (msgId : String)
    (s : Except JsError StreamOutcome) :
    terminalInvariant (sendMessageStreamWithEventsModel v msgId s) = true := by
  cases v with
  | some ve =>
    have h := terminalInvariant_concat []
      (StreamingEvent.error ⟨StreamingErrorType.connection, ve.message, false⟩ none)
      rfl rfl
    simpa [sendMessageStreamWithEventsModel] using h
  | none =>
    cases s with
    | error e =>
      have h := terminalInvariant_concat [StreamingEvent.start msgId]
        (StreamingEvent.error (classifyStreamingError e) (some (msgId, 0)))
        (by simp [isTerminal]) rfl
      simpa [sendMessageStreamWithEventsModel] using h
    | ok o =>
      cases o with
      | success ds =>
        have h := terminalInvariant_concat
          (StreamingEvent.start msgId :: chunkEventsFrom msgId 0 ds)
          (StreamingEvent.complete msgId ds.length ds.length)
          (by simp [isTerminal, chunkEventsFrom_nonterminal msgId ds 0]
              intro x hx
              have := List.all_eq_true.mp (chunkEventsFrom_nonterminal msgId ds 0) x hx
              simpa using this) rfl
        simpa [sendMessageStreamWithEventsModel] using h
      | failsAfter ds e =>
        have h := terminalInvariant_concat
          (StreamingEvent.start msgId :: chunkEventsFrom msgId 0 ds)
          (StreamingEvent.error (classifyStreamingError e) (some (msgId, ds.length)))
          (by simp [isTerminal]
              intro x hx
              have := List.all_eq_true.mp (chunkEventsFrom_nonterminal msgId ds 0) x hx
              simpa using this) rfl
        simpa [sendMessageStreamWithEventsModel] using h

/-- Claim C1: every event sequence produced by a complete run of
sendMessageStreamWithEvents, and likewise of
sendMessageWithHistoryStreamWithEvents, satisfies the terminal-event
invariant: it contains exactly one terminal event (complete, error, or
abort), that terminal event is last — so every chunk event precedes it —
and no event of any kind follows it. -/
theorem C1_exactly_one_terminal_event (v : Option FastGPTApiError)
    (msgId : String) (s : Except JsError StreamOutcome) :
    terminalInvariant (sendMessageStreamWithEventsModel v msgId s) = true
    ∧ terminalInvariant (sendMessageWithHistoryStreamWithEventsModel v msgId s) = true :=
  ⟨model_terminalInvariant v msgId s, model_terminalInvariant v msgId s⟩

/-- Claim C10: whenever configuration validation fails (empty base URL,
empty app id, empty API key, or a base URL that the URL constructor
rejects or that is not http/https), both event-emitting generators yield
exactly one event: an error event whose type is connection (not a
validation-specific kind) with recoverable = false and the validation
message, and no start event is ever emitted. -/
theorem C10_validation_failure_single_error_event
    (up : String → Option String) (cfg : FastGPTConfig) (e : FastGPTApiError)
    (msgId : String) (setup : Except JsError StreamOutcome)
    (h : validateConfig up cfg = some e) :
    sendMessageStreamWithEventsRun up cfg msgId setup
      = [StreamingEvent.error ⟨StreamingErrorType.connection, e.message, false⟩ none]
    ∧ sendMessageWithHistoryStreamWithEventsRun up cfg msgId setup
      = [StreamingEvent.error ⟨StreamingErrorType.connection, e.message, false⟩ none] := by
  unfold sendMessageStreamWithEventsRun sendMessageWithHistoryStreamWithEventsRun
  rw [h]
  exact ⟨rfl, rfl⟩

theorem C10_validation_failure_single_error_event_witness :
    validateConfig (fun _ => none) ⟨"", "app", "key"⟩
      = some ⟨none, "Base URL is required", ErrType.validation, none, none⟩
    ∧ sendMessageStreamWithEventsRun (fun _ => none) ⟨"", "app", "key"⟩ "m"
        (Except.ok (StreamOutcome.success []))
      = [StreamingEvent.error
          ⟨StreamingErrorType.connection, "Base URL is required", false⟩ none] :=
  ⟨rfl,
   (C10_validation_failure_single_error_event (fun _ => none) ⟨"", "app", "key"⟩
      ⟨none, "Base URL is required", ErrType.validation, none, none⟩ "m"
      (Except.ok (StreamOutcome.success [])) rfl).1⟩

/-! ## Helper lemmas about the SSE stream decoder -/

theorem splitNl_of_noNl (l : List Char) (h : '\n' ∉ l) : splitNl l = [l] := by
  induction l with
  | nil => rfl
  | cons c t ih =>
    have hc : ¬(c = '\n') := fun hh => h (hh ▸ List.mem_cons_self c t)
    have ht : '\n' ∉ t := fun hh => h (List.mem_cons_of_mem c hh)
    rw [splitNl, if_neg hc, ih ht]
    rfl

theorem splitNl_noNl_append (a b : List Char) (h : '\n' ∉ a) :
    splitNl (a ++ '\n' :: b) = a :: splitNl b := by
  induction a with
  | nil =>
    rw [List.nil_append, splitNl, if_pos rfl]
  | cons c a ih =>
    have hc : ¬(c = '\n') := fun hh => h (hh ▸ List.mem_cons_self c a)
    have ha : '\n' ∉ a := fun hh => h (List.mem_cons_of_mem c hh)
    rw [List.cons_append, splitNl, if_neg hc, ih ha]
    rfl

theorem splitNl_ne_nil (l : List Char) : splitNl l ≠ [] := by
  cases l with
  | nil => simp [splitNl]
  | cons c t =>
    rw [splitNl]
    by_cases hc : c = '\n'
    · rw [if_pos hc]; simp
    · rw [if_neg hc]
      cases h : splitNl t with
      | nil => simp [consHead]
      | cons x xs => simp [consHead]

theorem getLastD_eq_of_ne_nil {α : Type} (s : List α) (d d' : α) (h : s ≠ []) :
    s.getLastD d = s.getLastD d' := by
  induction s generalizing d d' with
  | nil => exact absurd rfl h
  | cons x t ih =>
    cases t with
    | nil => rfl
    | cons y u => simp only [List.getLastD_cons]

theorem noNl_getLastD_splitNl (l : List Char) : '\n' ∉ (splitNl l).getLastD [] := by
  induction l with
  | nil => simp [splitNl]
  | cons c t ih =>
    rw [splitNl]
    by_cases hc : c = '\n'
    · rw [if_pos hc]
      rw [List.getLastD_cons]
      rwa [getLastD_eq_of_ne_nil _ _ [] (splitNl_ne_nil t)]
    · rw [if_neg hc]
      cases h : splitNl t with
      | nil => exact absurd h (splitNl_ne_nil t)
      | cons x xs =>
        rw [h] at ih
        cases xs with
        | nil =>
          simp only [consHead, List.getLastD_cons, List.getLastD_nil] at ih ⊢
          intro hmem
          rcases List.mem_cons.mp hmem with h1 | h2
          · exact hc h1.symm
          · exact ih h2
        | cons y ys =>
          simp only [consHead, List.getLastD_cons] at ih ⊢
          exact ih

theorem enhStepText_cons (parse : List Char → JsonResult) (buf : List Char)
    (out : List (List Char)) (c : Char) (t : List Char) (h : '\n' ∉ buf) :
    enhStepText parse (buf, out) (c :: t)
      = enhStepText parse (lineFold (handleLineE parse) (buf, out) c) t := by
  by_cases hc : c = '\n'
  · subst hc
    unfold enhStepText lineFold
    rw [if_pos rfl]
    simp only []
    rw [splitNl_noNl_append _ _ h, List.nil_append]
    cases hs : splitNl t with
    | nil => exact absurd hs (splitNl_ne_nil t)
    | cons x xs =>
      simp only [List.getLastD_cons, List.dropLast_cons_of_ne_nil (by simp : x :: xs ≠ [])]
      simp only [Prod.mk.injEq]
      refine ⟨trivial, ?_⟩
      rw [List.filterMap_cons]
      cases hb : handleLineE parse buf <;> simp [List.append_assoc]
  · unfold enhStepText lineFold
    rw [if_neg hc]
    simp only []
    have hsw : buf ++ c :: t = (buf ++ [c]) ++ t := by simp
    rw [hsw]

theorem enhStepText_eq_foldl (parse : List Char → JsonResult) :
    ∀ (t : List Char) (st : List Char × List (List Char)), '\n' ∉ st.1 →
      enhStepText parse st t = List.foldl (lineFold (handleLineE parse)) st t := by
  intro t
  induction t with
  | nil =>
    intro st h
    unfold enhStepText
    rw [List.append_nil, splitNl_of_noNl _ h]
    simp
  | cons c t ih =>
    intro st h
    rw [List.foldl_cons, ← ih (lineFold (handleLineE parse) st c) ?_]
    · obtain ⟨buf, out⟩ := st
      exact enhStepText_cons parse buf out c t h
    · unfold lineFold
      by_cases hc : c = '\n'
      · rw [if_pos hc]; simp
      · rw [if_neg hc]
        simp only []
        intro hmem
        rcases List.mem_append.mp hmem with h1 | h2
        · exact h h1
        · simp at h2
          exact hc h2.symm

theorem noNl_enhStepText_buf (parse : List Char → JsonResult)
    (st : List Char × List (List Char)) (t : List Char) :
    '\n' ∉ (enhStepText parse st t).1 := by
  unfold enhStepText
  exact noNl_getLastD_splitNl (st.1 ++ t)

theorem enhStepText_comp (parse : List Char → JsonResult)
    (st : List Char × List (List Char)) (h : '\n' ∉ st.1) (t1 t2 : List Char) :
    enhStepText parse (enhStepText parse st t1) t2
      = enhStepText parse st (t1 ++ t2) := by
  rw [enhStepText_eq_foldl parse t2 _ (noNl_enhStepText_buf parse st t1),
    enhStepText_eq_foldl parse t1 st h,
    enhStepText_eq_foldl parse (t1 ++ t2) st h,
    List.foldl_append]

theorem decodeChunk_append (a b : List Nat) :
    ∀ st : DecoderState,
      decodeChunk st (a ++ b)
        = ((decodeChunk st a).1 ++ (decodeChunk (decodeChunk st a).2 b).1,
            (decodeChunk (decodeChunk st a).2 b).2) := by
  induction a with
  | nil => intro st; simp [decodeChunk]
  | cons x a ih =>
    intro st
    rw [List.cons_append, decodeChunk, decodeChunk, ih (decodeByte st x).2]
    simp [List.append_assoc]

theorem enhStep_comp (parse : List Char → JsonResult) (st : EnhState)
    (h : '\n' ∉ st.buf) (c1 c2 : List Nat) :
    enhStep parse (enhStep parse st c1) c2 = enhStep parse st (c1 ++ c2) := by
  unfold enhStep
  rw [decodeChunk_append]
  simp only []
  rw [← enhStepText_comp parse (st.buf, st.out) h]

theorem enhStep_nil (parse : List Char → JsonResult) (st : EnhState)
    (h : '\n' ∉ st.buf) : enhStep parse st [] = st := by
  simp [enhStep, decodeChunk, enhStepText, splitNl_of_noNl _ h]

theorem noNl_enhStep_buf (parse : List Char → JsonResult) (st : EnhState)
    (c : List Nat) : '\n' ∉ (enhStep parse st c).buf := by
  unfold enhStep
  exact noNl_enhStepText_buf parse _ _

theorem foldl_enhStep_join (parse : List Char → JsonResult) :
    ∀ (chunks : List (List Nat)) (st : EnhState), '\n' ∉ st.buf →
      List.foldl (enhStep parse) st chunks = enhStep parse st chunks.flatten := by
  intro chunks
  induction chunks with
  | nil => intro st h; simp [enhStep_nil parse st h]
  | cons c cs ih =>
    intro st h
    rw [List.foldl_cons, ih (enhStep parse st c) (noNl_enhStep_buf parse st c),
      enhStep_comp parse st h, List.flatten_cons]

/-- Counterexample to claim C3 as stated: the same byte sequence — the
single well-formed frame data: jsonHi followed by a newline — delivered
whole versus split after 11 bytes (inside the line, in the middle of the
JSON payload) makes processStreamResponse emit different delta
sequences: the whole chunk yields Hi, the split yields nothing, because
processStreamResponse splits each chunk on newlines without carrying a
line buffer across reads. -/
theorem C3_counterexample :
    processStreamResponse parseEx [fullFrame] = Except.ok ["Hi".data]
    ∧ processStreamResponse parseEx [fullFrame.take 11, fullFrame.drop 11]
        = Except.ok []
    ∧ fullFrame.take 11 ++ fullFrame.drop 11 = fullFrame := by
  refine ⟨by decide, by decide, by decide⟩

/-- Claim C3 (amended): processEnhancedStreamResponse is chunk-boundary
invariant — for every byte sequence and every partition of it into
chunks (including splits inside a multi-byte UTF-8 code point, handled
by the carried decoder state), it emits exactly the deltas of the
single-chunk delivery.  processStreamResponse does not share this
property (C3_counterexample): only its UTF-8 decoding is incremental,
its newline splitting is per chunk. -/
theorem C3_enhanced_chunk_boundary_invariance (parse : List Char → JsonResult)
    (chunks : List (List Nat)) :
    processEnhancedStreamResponse parse chunks
      = processEnhancedStreamResponse parse [chunks.flatten] := by
  unfold processEnhancedStreamResponse
  rw [foldl_enhStep_join parse chunks ⟨DecoderState.init, [], []⟩ (by simp),
    List.foldl_cons, List.foldl_nil]

theorem isPrefixOf_append_self (p l : List Char) :
    List.isPrefixOf p (p ++ l) = true := by
  induction p with
  | nil => simp [List.isPrefixOf]
  | cons c p ih => simp [List.isPrefixOf, ih]

theorem drop_dataPrefix (j : List Char) : (dataPrefix ++ j).drop 6 = j := by
  have h : dataPrefix.length = 6 := rfl
  rw [← h]
  exact List.drop_left _ _

theorem doneLine_eq : doneLine = dataPrefix ++ "[DONE]".data := by decide

theorem handleLineE_data_frame (parse : List Char → JsonResult) (j : List Char)
    (ht : trimChars (dataPrefix ++ j) = dataPrefix ++ j) (hd : j ≠ "[DONE]".data) :
    handleLineE parse (dataPrefix ++ j)
      = match parse j with
        | JsonResult.fail => none
        | JsonResult.val _ content => content := by
  unfold handleLineE
  rw [ht]
  rw [if_neg ?_, if_pos (isPrefixOf_append_self _ _), drop_dataPrefix]
  intro hor
  rcases hor with h1 | h2
  · exact absurd h1 (by simp [dataPrefix])
  · rw [doneLine_eq] at h2
    exact hd (List.append_cancel_left h2)

theorem handleLinePlain_data_frame (parse : List Char → JsonResult) (j : List Char)
    (ht : trimChars (dataPrefix ++ j) = dataPrefix ++ j) (hd : j ≠ "[DONE]".data) :
    handleLinePlain parse (dataPrefix ++ j)
      = match parse j with
        | JsonResult.fail => PlainAct.skip
        | JsonResult.val (some m) _ => PlainAct.throwE m
        | JsonResult.val none (some c) => PlainAct.emit c
        | JsonResult.val none none => PlainAct.skip := by
  unfold handleLinePlain
  rw [ht]
  rw [if_neg ?_, if_pos (isPrefixOf_append_self _ _), drop_dataPrefix]
  · cases hp : parse j with
    | fail => rfl
    | val em content => cases em <;> cases content <;> rfl
  intro hor
  rcases hor with h1 | h2
  · exact absurd h1 (by simp [dataPrefix])
  · rw [doneLine_eq] at h2
    exact hd (List.append_cancel_left h2)

/-- Claim C7: in a stream made of a well-formed data frame, a malformed
(non-JSON-decodable) data frame and a second well-formed data frame,
decoding does not terminate at the malformed frame — the malformed line
is skipped and the content deltas of both valid frames are emitted, in
order, by the enhanced processor and by the plain processor alike.  The
frames are data-marked newline-terminated lines whose payloads survive
trimming, contain no newline, and are not the end sentinel; parse gives
the JSON.parse outcome of each payload. -/
theorem C7_malformed_frame_does_not_terminate (parse : List Char → JsonResult)
    (j1 jm j2 c1 c2 : List Char)
    (ht1 : trimChars (dataPrefix ++ j1) = dataPrefix ++ j1)
    (ht2 : trimChars (dataPrefix ++ jm) = dataPrefix ++ jm)
    (ht3 : trimChars (dataPrefix ++ j2) = dataPrefix ++ j2)
    (hn1 : '\n' ∉ j1) (hn2 : '\n' ∉ jm) (hn3 : '\n' ∉ j2)
    (hd1 : j1 ≠ "[DONE]".data) (hd2 : jm ≠ "[DONE]".data) (hd3 : j2 ≠ "[DONE]".data)
    (hp1 : parse j1 = JsonResult.val none (some c1))
    (hpm : parse jm = JsonResult.fail)
    (hp2 : parse j2 = JsonResult.val none (some c2)) :
    processEnhancedText parse
        [(dataPrefix ++ j1) ++ '\n' :: ((dataPrefix ++ jm) ++ '\n' :: ((dataPrefix ++ j2) ++ ['\n']))]
      = [c1, c2]
    ∧ processPlainText parse
        [(dataPrefix ++ j1) ++ '\n' :: ((dataPrefix ++ jm) ++ '\n' :: ((dataPrefix ++ j2) ++ ['\n']))]
      = Except.ok [c1, c2] := by
  have hnd : '\n' ∉ dataPrefix := by decide
  have hno1 : '\n' ∉ dataPrefix ++ j1 := by
    intro hmem
    rcases List.mem_append.mp hmem with hh | hh
    exacts [hnd hh, hn1 hh]
  have hno2 : '\n' ∉ dataPrefix ++ jm := by
    intro hmem
    rcases List.mem_append.mp hmem with hh | hh
    exacts [hnd hh, hn2 hh]
  have hno3 : '\n' ∉ dataPrefix ++ j2 := by
    intro hmem
    rcases List.mem_append.mp hmem with hh | hh
    exacts [hnd hh, hn3 hh]
  have hsplit : splitNl
      ((dataPrefix ++ j1) ++ '\n' :: ((dataPrefix ++ jm) ++ '\n' :: ((dataPrefix ++ j2) ++ ['\n'])))
      = [dataPrefix ++ j1, dataPrefix ++ jm, dataPrefix ++ j2, []] := by
    rw [splitNl_noNl_append _ _ hno1, splitNl_noNl_append _ _ hno2,
      show ((dataPrefix ++ j2) ++ ['\n']) = ((dataPrefix ++ j2) ++ '\n' :: []) from rfl,
      splitNl_noNl_append _ _ hno3]
    rfl
  have h1 : handleLineE parse (dataPrefix ++ j1) = some c1 := by
    rw [handleLineE_data_frame parse j1 ht1 hd1, hp1]
  have h2 : handleLineE parse (dataPrefix ++ jm) = none := by
    rw [handleLineE_data_frame parse jm ht2 hd2, hpm]
  have h3 : handleLineE parse (dataPrefix ++ j2) = some c2 := by
    rw [handleLineE_data_frame parse j2 ht3 hd3, hp2]
  have p1 : handleLinePlain parse (dataPrefix ++ j1) = PlainAct.emit c1 := by
    rw [handleLinePlain_data_frame parse j1 ht1 hd1, hp1]
  have p2 : handleLinePlain parse (dataPrefix ++ jm) = PlainAct.skip := by
    rw [handleLinePlain_data_frame parse jm ht2 hd2, hpm]
  have p3 : handleLinePlain parse (dataPrefix ++ j2) = PlainAct.emit c2 := by
    rw [handleLinePlain_data_frame parse j2 ht3 hd3, hp2]
  have p4 : handleLinePlain parse [] = PlainAct.skip := rfl
  constructor
  · unfold processEnhancedText
    rw [List.foldl_cons, List.foldl_nil]
    unfold enhStepText
    rw [List.nil_append, hsplit]
    simp only [List.dropLast_cons_of_ne_nil, List.getLastD_cons, List.getLastD_nil]
    simp [List.filterMap_cons, h1, h2, h3, finalFlushE, trimChars]
  · unfold processPlainText
    rw [processPlainTextGo, hsplit]
    simp only [runPlainLines, p1, p2, p3, p4]
    simp [processPlainTextGo]

theorem C7_malformed_frame_does_not_terminate_witness :
    processEnhancedText parseC7
        [(dataPrefix ++ jsonHi) ++ '\n' :: ((dataPrefix ++ badFrag) ++ '\n' :: ((dataPrefix ++ jsonB) ++ ['\n']))]
      = ["Hi".data, "B!".data]
    ∧ processPlainText parseC7
        [(dataPrefix ++ jsonHi) ++ '\n' :: ((dataPrefix ++ badFrag) ++ '\n' :: ((dataPrefix ++ jsonB) ++ ['\n']))]
      = Except.ok ["Hi".data, "B!".data] :=
  C7_malformed_frame_does_not_terminate parseC7 jsonHi badFrag jsonB
    "Hi".data "B!".data (by decide) (by decide) (by decide) (by decide)
    (by decide) (by decide) (by decide) (by decide) (by decide)
    (by decide) (by decide) (by decide)
